import Mathlib

/-!
Verification of the user-space TCP/IP stack (src/: arp.c, icmp.c, icmpv6.c,
ip.c, ipv6.c, udp.c) against its natural-language specification.

The embedding works at the byte level: a packet is a `List Nat` of bytes.
The target host is little-endian (the C sources byte-swap every wire field
with `swap16`/`swap32` before storing it, which is only meaningful on a
little-endian machine): a `uint16_t` field stored at offset `i` occupies
bytes `[v % 256, v / 256]`, and reading a `uint16_t` from bytes `a, b`
yields `a + 256 * b`.

Library code that is not part of src/ (the buffer, the expiring map,
`checksum16`, `swap16`, `transport_checksum`, the protocol registry) is
modelled from the specification; each such definition carries a
`Modelled from the spec:` doc comment.
-/

namespace NetStack

/-- The carry-folding loop of every checksum routine in the source
(`while (sum >> 16) sum = (sum & 0xFFFF) + (sum >> 16);`), written with an
explicit fuel so that it is structural and computes by kernel reduction.
The value strictly decreases at every step, so fuel equal to the starting
value always suffices (`foldCarry`). -/
def foldCarryFuel : Nat → Nat → Nat
  | 0, x => x
  | fuel + 1, x => if x < 65536 then x else foldCarryFuel fuel (x % 65536 + x / 65536)

/-- Fold the carries of a 32-bit one's-complement accumulator into 16 bits. -/
def foldCarry (x : Nat) : Nat := foldCarryFuel x x

theorem foldCarryFuel_lt (fuel : Nat) : ∀ x, x ≤ fuel + 65535 → foldCarryFuel fuel x < 65536 := by
  induction fuel with
  | zero => intro x hx; simp only [foldCarryFuel]; omega
  | succ n ih =>
      intro x hx
      rw [foldCarryFuel]
      by_cases h : x < 65536
      · simp [h]
      · simp only [h, if_false]
        exact ih _ (by omega)

theorem foldCarry_lt (x : Nat) : foldCarry x < 65536 :=
  foldCarryFuel_lt x x (by omega)

theorem foldCarryFuel_mod (fuel : Nat) : ∀ x, foldCarryFuel fuel x % 65535 = x % 65535 := by
  induction fuel with
  | zero => intro x; rfl
  | succ n ih =>
      intro x
      rw [foldCarryFuel]
      by_cases h : x < 65536
      · simp [h]
      · simp only [h, if_false]
        rw [ih]
        omega

theorem foldCarry_mod (x : Nat) : foldCarry x % 65535 = x % 65535 :=
  foldCarryFuel_mod x x

theorem foldCarryFuel_pos (fuel : Nat) : ∀ x, 0 < x → 0 < foldCarryFuel fuel x := by
  induction fuel with
  | zero => intro x hx; simp only [foldCarryFuel]; exact hx
  | succ n ih =>
      intro x hx
      rw [foldCarryFuel]
      by_cases h : x < 65536
      · simpa [h] using hx
      · simp only [h, if_false]
        exact ih _ (by omega)

theorem foldCarry_pos {x : Nat} (hx : 0 < x) : 0 < foldCarry x :=
  foldCarryFuel_pos x x hx

/-- For positive accumulators, folding is determined by the residue mod 65535. -/
theorem foldCarry_eq_of_mod {x y : Nat} (hx : 0 < x) (hy : 0 < y)
    (h : x % 65535 = y % 65535) : foldCarry x = foldCarry y := by
  have h1 := foldCarry_mod x
  have h2 := foldCarry_mod y
  have l1 := foldCarry_lt x
  have l2 := foldCarry_lt y
  have p1 := foldCarry_pos hx
  have p2 := foldCarry_pos hy
  omega

/-- One's-complement sum of a byte list read as host (little-endian) 16-bit
words, a trailing odd byte added as the low half of a word.  This is what
`checksum16` (over `uint16_t` memory) and the inline odd-length loop of
`icmp_resp` / `icmp_ping_request` compute on a little-endian host. -/
def sumLE : List Nat → Nat
  | [] => 0
  | [b] => b
  | a :: b :: t => (a + 256 * b) + sumLE t

/-- Same host-word sum but with a trailing odd byte added shifted left by 8
(the `sum += data[len-1] << 8` convention of `icmp_unreachable`). -/
def sumLEH : List Nat → Nat
  | [] => 0
  | [b] => 256 * b
  | a :: b :: t => (a + 256 * b) + sumLEH t

/-- One's-complement sum of a byte list read as big-endian (wire order)
16-bit words, a trailing odd byte as the high half of the padded word: the
specification's statement of the Internet checksum, and literally what
`icmpv6_checksum` computes byte by byte. -/
def sumBE : List Nat → Nat
  | [] => 0
  | [b] => 256 * b
  | a :: b :: t => (256 * a + b) + sumBE t

/-- Modelled from the spec: the `checksum16` primitive (its source is not
under src/).  It sums the 16-bit words of the range as the host reads them
from memory, folds the carries and complements; on the little-endian host
this is the `sumLE` convention, and the complemented value, stored back
into little-endian memory, yields the specification's big-endian wire
checksum bytes. -/
def checksum16 (l : List Nat) : Nat := 65535 - foldCarry (sumLE l)

/-- `swap16`: byte-swap of a 16-bit value (modelled from the spec's
byte-order primitives; its source is not under src/). -/
def swap16 (v : Nat) : Nat := 256 * (v % 256) + v / 256 % 256

theorem sumLE_mod (l : List Nat) : sumLE l % 65535 = 256 * sumBE l % 65535 := by
  induction l using sumLE.induct with
  | case1 => rfl
  | case2 b => simp only [sumLE, sumBE]; omega
  | case3 a b t ih =>
      simp only [sumLE, sumBE]
      have : (256 * (256 * a + b + sumBE t)) % 65535
          = ((a + 256 * b) % 65535 + 256 * sumBE t % 65535) % 65535 := by
        rw [Nat.mul_add]
        conv_lhs => rw [Nat.add_mod]
        congr 1
        congr 1
        omega
      rw [this, ← ih]
      conv_lhs => rw [Nat.add_mod]

theorem sumLEH_eq_sumLE_add (l : List Nat) (h : l.length % 2 = 1) :
    sumLEH l = sumLE l + 255 * (l.getLast?.getD 0) := by
  induction l using sumLEH.induct with
  | case1 => simp at h
  | case2 b => simp [sumLEH, sumLE]; omega
  | case3 a b t ih =>
      have ht : t ≠ [] := by
        intro he; subst he; simp at h
      have h' : t.length % 2 = 1 := by
        simp [List.length_cons] at h ⊢; omega
      have hlast : (a :: b :: t).getLast? = t.getLast? := by
        rcases t with _ | ⟨x, xs⟩
        · exact absurd rfl ht
        · simp [List.getLast?_cons_cons]
      rw [hlast]
      simp only [sumLEH, sumLE, ih h']
      ring

theorem getLast_le_sumLE (l : List Nat) (h : l.length % 2 = 1) :
    l.getLast?.getD 0 ≤ sumLE l := by
  induction l using sumLE.induct with
  | case1 => simp at h
  | case2 b => simp [sumLE]
  | case3 a b t ih =>
      have ht : t ≠ [] := by
        intro he; subst he; simp at h
      have h' : t.length % 2 = 1 := by
        simp [List.length_cons] at h ⊢; omega
      have hlast : (a :: b :: t).getLast? = t.getLast? := by
        rcases t with _ | ⟨x, xs⟩
        · exact absurd rfl ht
        · simp [List.getLast?_cons_cons]
      rw [hlast]
      simp only [sumLE]
      have := ih h'
      omega

/-! ### ICMPv4 checksum conventions (icmp.c)

`icmpRespCk` is the checksum computation of `icmp_resp` (and of
`icmp_ping_request`, which repeats it verbatim): for even lengths it calls
`checksum16`, for odd lengths an inline loop that adds the trailing byte
as-is (the low half of a host word).  On the little-endian host both
branches compute the same `sumLE`-based value.

`icmpUnreachCk` is the checksum computation of `icmp_unreachable`: the even
branch is the same `checksum16`, but the odd branch adds the trailing byte
shifted left by 8 (the high half of a host word). -/

def icmpRespCk (l : List Nat) : Nat :=
  if l.length % 2 = 1 then 65535 - foldCarry (sumLE l) else checksum16 l

def icmpUnreachCk (l : List Nat) : Nat :=
  if l.length % 2 = 1 then 65535 - foldCarry (sumLEH l) else checksum16 l

/-- C6: for every odd-length message whose trailing byte is a nonzero byte,
the checksum `icmp_resp` computes (trailing byte folded low) differs from
the checksum `icmp_unreachable` computes (trailing byte folded high). -/
theorem icmp_odd_byte_conventions_differ (l : List Nat)
    (hodd : l.length % 2 = 1) (hb0 : l.getLast?.getD 0 ≠ 0)
    (hb : l.getLast?.getD 0 < 256) :
    icmpRespCk l ≠ icmpUnreachCk l := by
  set b := l.getLast?.getD 0 with hbdef
  have hH := sumLEH_eq_sumLE_add l hodd
  have hle := getLast_le_sumLE l hodd
  have hpos : 0 < sumLE l := by omega
  have hposH : 0 < sumLEH l := by omega
  simp only [icmpRespCk, icmpUnreachCk, hodd, if_pos]
  intro heq
  have l1 := foldCarry_lt (sumLE l)
  have l2 := foldCarry_lt (sumLEH l)
  have heqf : foldCarry (sumLE l) = foldCarry (sumLEH l) := by omega
  have hm1 := foldCarry_mod (sumLE l)
  have hm2 := foldCarry_mod (sumLEH l)
  rw [heqf, hm2, hH] at hm1
  -- sumLE l ≡ sumLE l + 255 * b (mod 65535) with 0 < 255 * b < 65535
  omega

/-- Witness for C6 at the one-byte message `[1]`. -/
theorem icmp_odd_byte_conventions_differ_witness :
    icmpRespCk [1] ≠ icmpUnreachCk [1] :=
  icmp_odd_byte_conventions_differ [1] (by decide) (by decide) (by decide)

theorem icmpRespCk_eq (l : List Nat) : icmpRespCk l = 65535 - foldCarry (sumLE l) := by
  unfold icmpRespCk checksum16
  split <;> rfl

theorem sumLE_le (l : List Nat) : sumLE l ≤ 256 * sumBE l := by
  induction l using sumLE.induct with
  | case1 => simp [sumLE, sumBE]
  | case2 b => simp only [sumLE, sumBE]; omega
  | case3 a b t ih => simp only [sumLE, sumBE]; omega

theorem sumBE_cons4 (a b c d : Nat) (t : List Nat) :
    sumBE (a :: b :: c :: d :: t) = 256 * a + b + 256 * c + d + sumBE t := by
  simp only [sumBE]; ring

/-- Key one's-complement identity: if a 16-bit slot of the message is filled
with the complement of the folded host-word sum of the zeroed message
(computed as `sumLE` and stored into little-endian memory), then the
big-endian Internet checksum of the whole message recomputes to zero.
`S` is the big-endian word sum of the message outside that slot, `L` its
little-endian word sum. -/
theorem inet_verify_zero (S L : Nat) (hLS : L % 65535 = 256 * S % 65535)
    (hle : L ≤ 256 * S) :
    65535 - foldCarry (S + (256 * ((65535 - foldCarry L) % 256)
      + (65535 - foldCarry L) / 256)) = 0 := by
  set F := foldCarry L with hF
  have hFlt : F < 65536 := foldCarry_lt L
  have hFmod : F % 65535 = L % 65535 := foldCarry_mod L
  set v := 65535 - F with hv
  set W := 256 * (v % 256) + v / 256 with hW
  -- the filled-in word is congruent to 256 * v mod 65535
  have hWv : W % 65535 = 256 * v % 65535 := by
    have : 256 * v = 65536 * (v / 256) + 256 * (v % 256) := by omega
    omega
  -- positivity of the verifier's total sum
  have hpos : 0 < S + W := by
    rcases Nat.eq_zero_or_pos (S + W) with h0 | h
    · exfalso
      have hS : S = 0 := by omega
      have hWz : W = 0 := by omega
      have hv0 : v = 0 := by omega
      have hL0 : L = 0 := by omega
      have : F = 0 := by rw [hF, hL0]; rfl
      omega
    · exact h
  -- congruence: S + W ≡ 0 (mod 65535)
  have h1 : F ≡ 256 * S [MOD 65535] := by
    unfold Nat.ModEq; omega
  have c1 : 256 * F ≡ 256 * (256 * S) [MOD 65535] := h1.mul_left 256
  have c2 : 256 * (256 * S) ≡ S [MOD 65535] := by
    have h65536 : (65536 : Nat) ≡ 1 [MOD 65535] := by decide
    calc 256 * (256 * S) = 65536 * S := by ring
    _ ≡ 1 * S [MOD 65535] := h65536.mul_right S
    _ = S := by ring
  have c3 : 256 * F ≡ S [MOD 65535] := c1.trans c2
  have cW : W ≡ 256 * v [MOD 65535] := by unfold Nat.ModEq; omega
  have e1 : S + 256 * v + 256 * F = S + 256 * 65535 := by omega
  have d1 : S + W + 256 * F ≡ S + 256 * v + 256 * F [MOD 65535] :=
    ((cW.add_left S).add_right (256 * F))
  have d2 : S + 256 * 65535 ≡ S + 0 [MOD 65535] :=
    Nat.ModEq.add_left S (by decide)
  have d3 : S + W + 256 * F ≡ S [MOD 65535] := by
    have := d1.trans (by rw [e1] : S + 256 * v + 256 * F ≡ S + 256 * 65535 [MOD 65535])
    simpa using this.trans d2
  have d4 : S + W + 256 * F ≡ S + W + S [MOD 65535] :=
    Nat.ModEq.add_left (S + W) c3
  have d5 : S + W + S ≡ 0 + S [MOD 65535] := by
    have := (d4.symm.trans d3)
    simpa using this
  have hfinal : (S + W) % 65535 = 0 := by
    have := Nat.ModEq.add_right_cancel' S d5
    simpa [Nat.ModEq] using this
  have hm := foldCarry_mod (S + W)
  have hl := foldCarry_lt (S + W)
  have hp := foldCarry_pos hpos
  omega

/-! ### EUI-64 link-local derivation (ipv6.c) -/

/-- `ipv6_init` (src/src/ipv6.c): the link-local IPv6 address derived from
the interface MAC: `fe80::`, then the EUI-64 interface identifier (U/L bit
of MAC byte 0 flipped, `ff:fe` inserted between MAC bytes 3 and 4). -/
def ipv6_init_lladdr (mac : List Nat) : List Nat :=
  [0xfe, 0x80, 0, 0, 0, 0, 0, 0,
   mac.getD 0 0 ^^^ 0x02, mac.getD 1 0, mac.getD 2 0, 0xff, 0xfe,
   mac.getD 3 0, mac.getD 4 0, mac.getD 5 0]

/-- `ipv6_out` (src/src/ipv6.c): destination-MAC derivation from the
destination IPv6 address: multicast `ff..` maps to `33:33` plus the last
four address bytes, link-local `fe80::/10` reconstructs the MAC from the
EUI-64 interface identifier, anything else falls back to broadcast. -/
def ipv6_out_dst_mac (ip : List Nat) : List Nat :=
  if ip.getD 0 0 = 0xff then
    [0x33, 0x33, ip.getD 12 0, ip.getD 13 0, ip.getD 14 0, ip.getD 15 0]
  else if ip.getD 0 0 = 0xfe ∧ ip.getD 1 0 &&& 0xc0 = 0x80 then
    [ip.getD 8 0 ^^^ 0x02, ip.getD 9 0, ip.getD 10 0,
     ip.getD 13 0, ip.getD 14 0, ip.getD 15 0]
  else
    [0xff, 0xff, 0xff, 0xff, 0xff, 0xff]

/-- C9: the EUI-64 link-local derivation of `ipv6_init` and the
link-local-to-MAC reconstruction of `ipv6_out` are mutual inverses, and
MAC `02:11:22:33:44:55` derives link-local `fe80::0011:22ff:fe33:4455`. -/
theorem eui64_roundtrip (m0 m1 m2 m3 m4 m5 : Nat) :
    ipv6_out_dst_mac (ipv6_init_lladdr [m0, m1, m2, m3, m4, m5])
      = [m0, m1, m2, m3, m4, m5]
    ∧ ipv6_init_lladdr [0x02, 0x11, 0x22, 0x33, 0x44, 0x55]
      = [0xfe, 0x80, 0, 0, 0, 0, 0, 0,
         0x00, 0x11, 0x22, 0xff, 0xfe, 0x33, 0x44, 0x55] := by
  constructor
  · have h1 : (0x80 : Nat) &&& 0xc0 = 0x80 := by decide
    simp only [ipv6_init_lladdr, ipv6_out_dst_mac, List.getD]
    norm_num [h1, Nat.xor_assoc, Nat.xor_self, Nat.xor_zero]
  · decide

/-! ### ICMPv4 echo (icmp.c) -/

/-- `icmp_resp` (src/src/icmp.c): copy the request message, set the type
byte to `ICMP_TYPE_ECHO_REPLY` (0), zero the checksum field (bytes 2-3),
compute the checksum (`icmpRespCk`) and store it into the little-endian
`checksum16` field. -/
def icmp_resp (req : List Nat) : List Nat :=
  let z := ((req.set 0 0).set 2 0).set 3 0
  let v := icmpRespCk z
  (z.set 2 (v % 256)).set 3 (v / 256)

/-- An emission of the ICMPv4 layer: `ip_out(msg, dst, NET_PROTOCOL_ICMP)`. -/
inductive IcmpEvent where
  | reply (msg : List Nat) (dst : List Nat)
  deriving DecidableEq

/-- `icmp_in` (src/src/icmp.c), as the list of messages it hands to
`ip_out`: drop messages shorter than the 8-byte header; answer
`ICMP_TYPE_ECHO_REQUEST` (8) with `icmp_resp`.  The
`ICMP_TYPE_ECHO_REPLY` branch only updates the local ping map and
statistics and emits nothing. -/
def icmp_in (msg : List Nat) (srcIp : List Nat) : List IcmpEvent :=
  if msg.length < 8 then []
  else if msg.getD 0 0 = 8 then [.reply (icmp_resp msg) srcIp]
  else []

/-- C2: every received ICMPv4 message of length ≥ 8 with type ECHO_REQUEST
produces exactly one reply, which keeps the request's code, id, seq and
payload bytes, has type ECHO_REPLY, and whose checksum field makes the
big-endian Internet checksum of the whole reply recompute to zero. -/
theorem icmp_echo_reply_spec (msg srcIp : List Nat) (hlen : 8 ≤ msg.length)
    (htype : msg.getD 0 0 = 8) :
    icmp_in msg srcIp = [.reply (icmp_resp msg) srcIp]
    ∧ (icmp_resp msg).getD 0 0 = 0
    ∧ (icmp_resp msg).getD 1 0 = msg.getD 1 0
    ∧ (icmp_resp msg).getD 4 0 = msg.getD 4 0
    ∧ (icmp_resp msg).getD 5 0 = msg.getD 5 0
    ∧ (icmp_resp msg).getD 6 0 = msg.getD 6 0
    ∧ (icmp_resp msg).getD 7 0 = msg.getD 7 0
    ∧ (icmp_resp msg).drop 8 = msg.drop 8
    ∧ (icmp_resp msg).length = msg.length
    ∧ 65535 - foldCarry (sumBE (icmp_resp msg)) = 0 := by
  rcases msg with _ | ⟨a, _ | ⟨b, _ | ⟨c, _ | ⟨d, _ | ⟨e, _ | ⟨f, _ | ⟨g, _ | ⟨h, t⟩⟩⟩⟩⟩⟩⟩⟩ <;>
    simp only [List.length_nil, List.length_cons] at hlen <;> try omega
  have ha : a = 8 := by simpa using htype
  subst ha
  have hresp : icmp_resp (8 :: b :: c :: d :: e :: f :: g :: h :: t)
      = 0 :: b :: ((65535 - foldCarry (sumLE (0 :: b :: 0 :: 0 :: e :: f :: g :: h :: t))) % 256)
        :: ((65535 - foldCarry (sumLE (0 :: b :: 0 :: 0 :: e :: f :: g :: h :: t))) / 256)
        :: e :: f :: g :: h :: t := by
    simp [icmp_resp, icmpRespCk_eq, List.set]
  refine ⟨?_, ?_, ?_, ?_, ?_, ?_, ?_, ?_, ?_, ?_⟩
  · simp only [icmp_in, List.length_cons]
    have hnl : ¬ (t.length + 1 + 1 + 1 + 1 + 1 + 1 + 1 + 1 < 8) := by omega
    rw [if_neg hnl, if_pos (by simp)]
  · rw [hresp]; rfl
  · rw [hresp]; rfl
  · rw [hresp]; rfl
  · rw [hresp]; rfl
  · rw [hresp]; rfl
  · rw [hresp]; rfl
  · rw [hresp]; simp [List.drop]
  · rw [hresp]; simp
  · rw [hresp]
    set z := (0 : Nat) :: b :: 0 :: 0 :: e :: f :: g :: h :: t with hz
    set L := sumLE z with hL
    set S := sumBE (e :: f :: g :: h :: t) with hS
    have hzbe : sumBE z = b + S := by
      rw [hz, sumBE_cons4]; ring
    have hrbe : sumBE (0 :: b :: (65535 - foldCarry L) % 256
        :: (65535 - foldCarry L) / 256 :: e :: f :: g :: h :: t)
        = (b + S) + (256 * ((65535 - foldCarry L) % 256) + (65535 - foldCarry L) / 256) := by
      rw [sumBE_cons4]; ring
    rw [hrbe]
    exact inet_verify_zero (b + S) L
      (by rw [hL, ← hzbe]; exact sumLE_mod z)
      (by have := sumLE_le z; rw [hzbe] at this; omega)

/-- Witness for C2: the S1 ping scenario, id `0x1234`, seq 7, payload
"abcdefgh". -/
theorem icmp_echo_reply_spec_witness :
    icmp_in [8, 0, 0, 0, 0x12, 0x34, 0, 7, 97, 98, 99, 100, 101, 102, 103, 104] [10, 0, 0, 2]
      = [.reply (icmp_resp [8, 0, 0, 0, 0x12, 0x34, 0, 7, 97, 98, 99, 100, 101, 102, 103, 104]) [10, 0, 0, 2]]
    ∧ (icmp_resp [8, 0, 0, 0, 0x12, 0x34, 0, 7, 97, 98, 99, 100, 101, 102, 103, 104]).getD 0 0 = 0
    ∧ (icmp_resp [8, 0, 0, 0, 0x12, 0x34, 0, 7, 97, 98, 99, 100, 101, 102, 103, 104]).getD 1 0
        = ([8, 0, 0, 0, 0x12, 0x34, 0, 7, 97, 98, 99, 100, 101, 102, 103, 104] : List Nat).getD 1 0
    ∧ (icmp_resp [8, 0, 0, 0, 0x12, 0x34, 0, 7, 97, 98, 99, 100, 101, 102, 103, 104]).getD 4 0
        = ([8, 0, 0, 0, 0x12, 0x34, 0, 7, 97, 98, 99, 100, 101, 102, 103, 104] : List Nat).getD 4 0
    ∧ (icmp_resp [8, 0, 0, 0, 0x12, 0x34, 0, 7, 97, 98, 99, 100, 101, 102, 103, 104]).getD 5 0
        = ([8, 0, 0, 0, 0x12, 0x34, 0, 7, 97, 98, 99, 100, 101, 102, 103, 104] : List Nat).getD 5 0
    ∧ (icmp_resp [8, 0, 0, 0, 0x12, 0x34, 0, 7, 97, 98, 99, 100, 101, 102, 103, 104]).getD 6 0
        = ([8, 0, 0, 0, 0x12, 0x34, 0, 7, 97, 98, 99, 100, 101, 102, 103, 104] : List Nat).getD 6 0
    ∧ (icmp_resp [8, 0, 0, 0, 0x12, 0x34, 0, 7, 97, 98, 99, 100, 101, 102, 103, 104]).getD 7 0
        = ([8, 0, 0, 0, 0x12, 0x34, 0, 7, 97, 98, 99, 100, 101, 102, 103, 104] : List Nat).getD 7 0
    ∧ (icmp_resp [8, 0, 0, 0, 0x12, 0x34, 0, 7, 97, 98, 99, 100, 101, 102, 103, 104]).drop 8
        = ([8, 0, 0, 0, 0x12, 0x34, 0, 7, 97, 98, 99, 100, 101, 102, 103, 104] : List Nat).drop 8
    ∧ (icmp_resp [8, 0, 0, 0, 0x12, 0x34, 0, 7, 97, 98, 99, 100, 101, 102, 103, 104]).length
        = ([8, 0, 0, 0, 0x12, 0x34, 0, 7, 97, 98, 99, 100, 101, 102, 103, 104] : List Nat).length
    ∧ 65535 - foldCarry (sumBE (icmp_resp [8, 0, 0, 0, 0x12, 0x34, 0, 7, 97, 98, 99, 100, 101, 102, 103, 104])) = 0 :=
  icmp_echo_reply_spec [8, 0, 0, 0, 0x12, 0x34, 0, 7, 97, 98, 99, 100, 101, 102, 103, 104]
    [10, 0, 0, 2] (by decide) (by decide)

/-! ### IPv4 fragmentation (ip.c) -/

/-- One IPv4 fragment as `ip_fragment_out` receives it: the payload slice,
the value written into the fragment-offset field (`offset & 0x1FFF` with
byte offset already divided by 8), the MF flag, and the datagram id. -/
structure Frag where
  data : List Nat
  offset : Nat
  mf : Bool
  id : Nat
  deriving DecidableEq, Repr

/-- The fragmentation `while (remaining > 0)` loop of `ip_out`
(src/src/ip.c), with explicit fuel so that it is structural; every
iteration consumes at least one byte, so fuel equal to the payload length
suffices. `off` is the current byte offset (`offset` in the C source). -/
def ipFragLoop : Nat → List Nat → Nat → Nat → List Frag
  | 0, _, _, _ => []
  | fuel + 1, l, off, id =>
      if l.length = 0 then []
      else
        ⟨l.take (min 1480 l.length), off / 8, decide (1480 < l.length), id⟩ ::
          ipFragLoop fuel (l.drop (min 1480 l.length)) (off + min 1480 l.length) id

/-- `ip_out` (src/src/ip.c) as the list of fragments handed to
`ip_fragment_out` (MTU 1500, 20-byte header, `max_payload = 1480`).  The
datagram id is threaded as a parameter; in the source each branch keeps
its own static counter and uses one value for the whole datagram. -/
def ip_out (l : List Nat) (id : Nat) : List Frag :=
  if 1480 < l.length then ipFragLoop l.length l 0 id
  else [⟨l, 0, false, id⟩]

theorem ipFragLoop_nil (n off id : Nat) : ipFragLoop n [] off id = [] := by
  cases n <;> simp [ipFragLoop]

theorem ipFragLoop_eq : ∀ (n : Nat) (l : List Nat) (off id : Nat),
    l.length ≤ n → 0 < l.length →
    ipFragLoop n l off id = (List.range ((l.length + 1479) / 1480)).map
      (fun i => ⟨(l.drop (1480 * i)).take 1480, (off + 1480 * i) / 8,
        decide (i + 1 < (l.length + 1479) / 1480), id⟩) := by
  intro n
  induction n with
  | zero => intro l off id h1 h2; omega
  | succ n ih =>
      intro l off id h1 h2
      rw [ipFragLoop]
      rw [if_neg (by omega)]
      by_cases hsmall : l.length ≤ 1480
      · have hk : (l.length + 1479) / 1480 = 1 := by omega
        have hmin : min 1480 l.length = l.length := by omega
        rw [hk, hmin, List.drop_length, ipFragLoop_nil]
        have hr1 : List.range 1 = [0] := rfl
        rw [hr1]
        simp only [List.map_cons, List.map_nil, Nat.mul_zero, List.drop_zero, Nat.add_zero]
        have h1480 : l.take 1480 = l := List.take_of_length_le hsmall
        have hlt : l.take l.length = l := List.take_of_length_le (le_refl _)
        rw [h1480, hlt, decide_eq_false (by omega : ¬ (1480 < l.length)),
          decide_eq_false (by omega : ¬ (0 + 1 < 1))]
      · have hbig : 1480 < l.length := by omega
        have hmin : min 1480 l.length = 1480 := by omega
        set k' := ((l.length - 1480) + 1479) / 1480 with hk'
        have hk : (l.length + 1479) / 1480 = k' + 1 := by omega
        have hk'pos : 0 < k' := by omega
        rw [hmin]
        rw [ih (l.drop 1480) (off + 1480) id
          (by rw [List.length_drop]; omega)
          (by rw [List.length_drop]; omega)]
        have hdlen : (l.drop 1480).length = l.length - 1480 := by simp
        rw [hdlen, ← hk', hk, List.range_succ_eq_map]
        simp only [List.map_cons, List.map_map, Nat.mul_zero, List.drop_zero, Nat.add_zero]
        congr 1
        · rw [decide_eq_true hbig, decide_eq_true (by omega : 0 + 1 < k' + 1)]
        · apply List.map_congr_left
          intro i hmem
          simp only [Function.comp_apply]
          have hdd : (l.drop 1480).drop (1480 * i) = l.drop (1480 * (i + 1)) := by
            rw [List.drop_drop]
            congr 1
            ring
          have hoffeq : off + 1480 + 1480 * i = off + 1480 * (i + 1) := by ring
          have hmf : decide (i + 1 < k') = decide (i + 1 + 1 < k' + 1) := by
            rw [decide_eq_decide]
            omega
          rw [hdd, hoffeq, hmf]

/-- C3 (amended): for payloads longer than 1480 bytes, `ip_out` emits
`ceil(len/1480)` fragments sharing one id; fragment `i` carries the bytes
`[1480*i, 1480*(i+1))` of the payload (1480 bytes each except the last,
which carries the remainder), its fragment-offset field is the byte offset
divided by 8 (= 185*i, so offsets are strictly ascending), and MF is set
exactly on the non-final fragments. -/
theorem ip_out_fragmentation (l : List Nat) (id i : Nat) (hlen : 1480 < l.length)
    (hi : i < (l.length + 1479) / 1480) :
    (ip_out l id).length = (l.length + 1479) / 1480
    ∧ ((ip_out l id).getD i ⟨[], 0, false, 0⟩).data = (l.drop (1480 * i)).take 1480
    ∧ ((ip_out l id).getD i ⟨[], 0, false, 0⟩).data.length = min 1480 (l.length - 1480 * i)
    ∧ (i + 1 < (l.length + 1479) / 1480 →
        ((ip_out l id).getD i ⟨[], 0, false, 0⟩).data.length = 1480)
    ∧ (i + 1 = (l.length + 1479) / 1480 →
        ((ip_out l id).getD i ⟨[], 0, false, 0⟩).data.length = l.length - 1480 * i)
    ∧ ((ip_out l id).getD i ⟨[], 0, false, 0⟩).offset = 185 * i
    ∧ (((ip_out l id).getD i ⟨[], 0, false, 0⟩).mf = true ↔ i + 1 < (l.length + 1479) / 1480)
    ∧ ((ip_out l id).getD i ⟨[], 0, false, 0⟩).id = id := by
  have hout : ip_out l id = (List.range ((l.length + 1479) / 1480)).map
      (fun j => ⟨(l.drop (1480 * j)).take 1480, (0 + 1480 * j) / 8,
        decide (j + 1 < (l.length + 1479) / 1480), id⟩) := by
    rw [ip_out, if_pos hlen]
    exact ipFragLoop_eq l.length l 0 id (le_refl _) (by omega)
  have hgetD : (ip_out l id).getD i ⟨[], 0, false, 0⟩
      = ⟨(l.drop (1480 * i)).take 1480, (0 + 1480 * i) / 8,
        decide (i + 1 < (l.length + 1479) / 1480), id⟩ := by
    rw [hout, List.getD_eq_getElem?_getD, List.getElem?_map, List.getElem?_range hi]
    rfl
  have hoff : (0 + 1480 * i) / 8 = 185 * i := by omega
  have hibound : 1480 * i < l.length := by omega
  refine ⟨?_, ?_, ?_, ?_, ?_, ?_, ?_, ?_⟩
  · rw [hout]; simp
  · rw [hgetD]
  · rw [hgetD]
    simp only [List.length_take, List.length_drop]
  · intro h
    rw [hgetD]
    simp only [List.length_take, List.length_drop]
    omega
  · intro h
    rw [hgetD]
    simp only [List.length_take, List.length_drop]
    omega
  · rw [hgetD, hoff]
  · rw [hgetD]
    simp
  · rw [hgetD]

/-- Counterexample for C3 as stated (spec scenario S4 claims payload sizes
(1480, 1480, 48)): a 3000-byte payload yields fragments of sizes
(1480, 1480, 40) with MF bits (1,1,0), offsets (0, 185, 370) and one id —
the last fragment carries 40 bytes, not 48. -/
theorem ip_out_s4_counterexample :
    ¬ ((ip_out (List.replicate 3000 0) 5).map (fun fr => fr.data.length)
        = [1480, 1480, 48]) := by
  have hlen : (List.replicate 3000 (0 : Nat)).length = 3000 := List.length_replicate 3000 0
  have h1 : ip_out (List.replicate 3000 0) 5
      = (List.range (((List.replicate 3000 (0 : Nat)).length + 1479) / 1480)).map
        (fun i => ⟨((List.replicate 3000 (0 : Nat)).drop (1480 * i)).take 1480,
          (0 + 1480 * i) / 8,
          decide (i + 1 < ((List.replicate 3000 (0 : Nat)).length + 1479) / 1480), 5⟩) := by
    rw [ip_out, if_pos (by rw [hlen]; omega)]
    exact ipFragLoop_eq (List.replicate 3000 0).length _ 0 5 (le_refl _) (by rw [hlen]; omega)
  rw [h1]
  simp only [hlen]
  have hr : ((3000 : Nat) + 1479) / 1480 = 3 := by norm_num
  rw [hr]
  have hr3 : List.range 3 = [0, 1, 2] := rfl
  rw [hr3]
  simp only [List.map_cons, List.map_nil, List.length_take, List.length_drop, hlen]
  intro hcontra
  have h3 := List.cons.injEq _ _ _ _ ▸ hcontra
  simp only [List.cons.injEq] at hcontra
  omega

/-- Witness for C3 (amended) at the S4 scenario: 3000-byte payload, last
fragment (i = 2). -/
theorem ip_out_fragmentation_witness :
    (ip_out (List.replicate 3000 0) 5).length
        = ((List.replicate (3000 : Nat) (0 : Nat)).length + 1479) / 1480
    ∧ ((ip_out (List.replicate 3000 0) 5).getD 2 ⟨[], 0, false, 0⟩).data
        = ((List.replicate (3000 : Nat) (0 : Nat)).drop (1480 * 2)).take 1480
    ∧ ((ip_out (List.replicate 3000 0) 5).getD 2 ⟨[], 0, false, 0⟩).data.length
        = min 1480 ((List.replicate (3000 : Nat) (0 : Nat)).length - 1480 * 2)
    ∧ (2 + 1 < ((List.replicate (3000 : Nat) (0 : Nat)).length + 1479) / 1480 →
        ((ip_out (List.replicate 3000 0) 5).getD 2 ⟨[], 0, false, 0⟩).data.length = 1480)
    ∧ (2 + 1 = ((List.replicate (3000 : Nat) (0 : Nat)).length + 1479) / 1480 →
        ((ip_out (List.replicate 3000 0) 5).getD 2 ⟨[], 0, false, 0⟩).data.length
          = (List.replicate (3000 : Nat) (0 : Nat)).length - 1480 * 2)
    ∧ ((ip_out (List.replicate 3000 0) 5).getD 2 ⟨[], 0, false, 0⟩).offset = 185 * 2
    ∧ (((ip_out (List.replicate 3000 0) 5).getD 2 ⟨[], 0, false, 0⟩).mf = true
        ↔ 2 + 1 < ((List.replicate (3000 : Nat) (0 : Nat)).length + 1479) / 1480)
    ∧ ((ip_out (List.replicate 3000 0) 5).getD 2 ⟨[], 0, false, 0⟩).id = 5 :=
  ip_out_fragmentation (List.replicate 3000 0) 5 2
    (by rw [List.length_replicate]; omega)
    (by rw [List.length_replicate]; omega)

/-! ### ARP (arp.c) -/

/-- Modelled from the spec: `map_get` of the expiring map (its source is
not under src/), restricted to the timeless view the ARP claims use — the
claims quantify over the presence or absence of an entry at the moment of
the call, so timestamps and expiry are omitted. -/
def mget {α : Type} : List (List Nat × α) → List Nat → Option α
  | [], _ => none
  | (k', v) :: t, k => if k' = k then some v else mget t k

/-- Modelled from the spec: `map_set` — insert or overwrite. -/
def mset {α : Type} : List (List Nat × α) → List Nat → α → List (List Nat × α)
  | [], k, v => [(k, v)]
  | (k', v') :: t, k, v => if k' = k then (k, v) :: t else (k', v') :: mset t k v

/-- Modelled from the spec: `map_delete` — remove if present. -/
def mdel {α : Type} : List (List Nat × α) → List Nat → List (List Nat × α)
  | [], _ => []
  | (k', v') :: t, k => if k' = k then mdel t k else (k', v') :: mdel t k

theorem mget_mset_self {α : Type} (m : List (List Nat × α)) (k : List Nat) (v : α) :
    mget (mset m k v) k = some v := by
  induction m with
  | nil => simp [mset, mget]
  | cons p t ih =>
      obtain ⟨k', v'⟩ := p
      by_cases h : k' = k
      · simp [mset, mget, h]
      · simp [mset, mget, h, ih]

/-- The ARP-relevant mutable state: the address table `arp_table`
(IPv4 → MAC) and the pending-send queue `arp_buf` (IPv4 → saved buffer). -/
structure ArpState where
  table : List (List Nat × List Nat)
  pending : List (List Nat × List Nat)
  deriving DecidableEq

/-- A frame handed to `ethernet_out`: destination MAC, ethertype
(`NET_PROTOCOL_ARP` = 0x0806, `NET_PROTOCOL_IP` = 0x0800), payload. -/
structure EthFrame where
  dst : List Nat
  ethertype : Nat
  payload : List Nat
  deriving DecidableEq

def broadcastMac : List Nat := [0xff, 0xff, 0xff, 0xff, 0xff, 0xff]

/-- `arp_req` (src/src/arp.c): the 28-byte ARP REQUEST built from the
fixed template (hw Ethernet, proto IPv4, lengths 6/4, our MAC/IP as
sender, zero target MAC) with `target_ip` filled in. -/
def arp_req (ourMac ourIp targetIp : List Nat) : List Nat :=
  [0, 1, 8, 0, 6, 4, 0, 1] ++ ourMac ++ ourIp ++ [0, 0, 0, 0, 0, 0] ++ targetIp

/-- `arp_resp` (src/src/arp.c): the ARP REPLY from the same template with
opcode REPLY and the requester's MAC/IP as target. -/
def arp_resp_pkt (ourMac ourIp targetIp targetMac : List Nat) : List Nat :=
  [0, 1, 8, 0, 6, 4, 0, 2] ++ ourMac ++ ourIp ++ targetMac ++ targetIp

/-- `arp_out` (src/src/arp.c): resolved destinations go straight to
Ethernet; an unresolved destination with an outstanding pending entry is
dropped; otherwise the buffer is saved in the pending queue and one ARP
REQUEST is broadcast. -/
def arp_out (ourMac ourIp : List Nat) (st : ArpState) (buf ip : List Nat) :
    ArpState × List EthFrame :=
  match mget st.table ip with
  | some mac => (st, [⟨mac, 0x0800, buf⟩])
  | none =>
      match mget st.pending ip with
      | some _ => (st, [])
      | none =>
          (⟨st.table, mset st.pending ip buf⟩,
           [⟨broadcastMac, 0x0806, arp_req ourMac ourIp ip⟩])

/-- `arp_in` (src/src/arp.c): validate the 28-byte header fields, learn
`sender_ip → sender_mac` unconditionally, then either flush a pending
buffer to the sender (regardless of opcode) or, only when none is pending,
answer a REQUEST for our IP with a REPLY. -/
def arp_in (ourMac ourIp : List Nat) (st : ArpState) (pkt : List Nat) :
    ArpState × List EthFrame :=
  if pkt.length < 28 then (st, []) else
  if ¬ (256 * pkt.getD 0 0 + pkt.getD 1 0 = 1
      ∧ 256 * pkt.getD 2 0 + pkt.getD 3 0 = 0x0800
      ∧ pkt.getD 4 0 = 6 ∧ pkt.getD 5 0 = 4) then (st, []) else
  let senderMac := (pkt.drop 8).take 6
  let senderIp := (pkt.drop 14).take 4
  let table' := mset st.table senderIp senderMac
  match mget st.pending senderIp with
  | some pbuf => (⟨table', mdel st.pending senderIp⟩, [⟨senderMac, 0x0800, pbuf⟩])
  | none =>
      if 256 * pkt.getD 6 0 + pkt.getD 7 0 = 1 ∧ (pkt.drop 24).take 4 = ourIp then
        (⟨table', st.pending⟩,
         [⟨senderMac, 0x0806, arp_resp_pkt ourMac ourIp senderIp senderMac⟩])
      else (⟨table', st.pending⟩, [])

theorem arp_out_wait (ourMac ourIp : List Nat) (st : ArpState) (buf ip : List Nat)
    (h1 : mget st.table ip = none) (h2 : mget st.pending ip ≠ none) :
    arp_out ourMac ourIp st buf ip = (st, []) := by
  rw [arp_out, h1]
  rcases hc : mget st.pending ip with _ | p
  · exact absurd hc h2
  · rfl

theorem arp_out_request (ourMac ourIp : List Nat) (st : ArpState) (buf ip : List Nat)
    (h1 : mget st.table ip = none) (h2 : mget st.pending ip = none) :
    arp_out ourMac ourIp st buf ip
      = (⟨st.table, mset st.pending ip buf⟩,
         [⟨broadcastMac, 0x0806, arp_req ourMac ourIp ip⟩]) := by
  rw [arp_out, h1, h2]

/-- C4: for a destination IP absent from the ARP table, the first
`arp_out` saves the buffer in the pending queue and broadcasts exactly one
ARP REQUEST for that IP (opcode 1, target IP = the destination); while the
pending entry exists any further `arp_out` to that IP emits no frame and
changes nothing — in particular the call right after the first one. -/
theorem arp_out_single_request (ourMac ourIp : List Nat) (st : ArpState)
    (buf b2 ip : List Nat) (hmac : ourMac.length = 6) (hip : ourIp.length = 4)
    (hmiss : mget st.table ip = none) :
    (mget st.pending ip = none →
      arp_out ourMac ourIp st buf ip
        = (⟨st.table, mset st.pending ip buf⟩,
           [⟨broadcastMac, 0x0806, arp_req ourMac ourIp ip⟩])
      ∧ mget (mset st.pending ip buf) ip = some buf
      ∧ (arp_req ourMac ourIp ip).take 8 = [0, 1, 8, 0, 6, 4, 0, 1]
      ∧ (arp_req ourMac ourIp ip).drop 24 = ip)
    ∧ (mget st.pending ip ≠ none → arp_out ourMac ourIp st b2 ip = (st, []))
    ∧ (arp_out ourMac ourIp (arp_out ourMac ourIp st buf ip).1 b2 ip
        = ((arp_out ourMac ourIp st buf ip).1, [])) := by
  refine ⟨?_, ?_, ?_⟩
  · intro hp
    refine ⟨arp_out_request ourMac ourIp st buf ip hmiss hp, mget_mset_self _ _ _, ?_, ?_⟩
    · rw [arp_req]
      rw [List.take_append_of_le_length (by simp [hmac, hip])]
      rw [List.take_append_of_le_length (by simp [hmac, hip])]
      rw [List.take_append_of_le_length (by simp [hmac])]
      exact List.take_left' rfl
    · rw [arp_req]
      exact List.drop_left' (by simp [hmac, hip])
  · intro hp
    exact arp_out_wait ourMac ourIp st b2 ip hmiss hp
  · rcases hcase : mget st.pending ip with _ | pbuf
    · rw [arp_out_request ourMac ourIp st buf ip hmiss hcase]
      exact arp_out_wait ourMac ourIp _ b2 ip hmiss
        (by rw [mget_mset_self]; exact Option.some_ne_none buf)
    · rw [arp_out_wait ourMac ourIp st buf ip hmiss
        (by rw [hcase]; exact Option.some_ne_none pbuf)]
      exact arp_out_wait ourMac ourIp st b2 ip hmiss
        (by rw [hcase]; exact Option.some_ne_none pbuf)

/-- Witness for C4 with an empty ARP state: the first call emits the one
REQUEST and saves the buffer, the immediately following call emits
nothing. -/
theorem arp_out_single_request_witness :
    (mget (ArpState.mk [] []).pending [10, 0, 0, 9] = none →
      arp_out [2, 0, 0, 0, 0, 1] [10, 0, 0, 1] ⟨[], []⟩ [1, 2, 3] [10, 0, 0, 9]
        = (⟨(ArpState.mk [] []).table, mset (ArpState.mk [] []).pending [10, 0, 0, 9] [1, 2, 3]⟩,
           [⟨broadcastMac, 0x0806, arp_req [2, 0, 0, 0, 0, 1] [10, 0, 0, 1] [10, 0, 0, 9]⟩])
      ∧ mget (mset (ArpState.mk [] []).pending [10, 0, 0, 9] [1, 2, 3]) [10, 0, 0, 9]
          = some [1, 2, 3]
      ∧ (arp_req [2, 0, 0, 0, 0, 1] [10, 0, 0, 1] [10, 0, 0, 9]).take 8
          = [0, 1, 8, 0, 6, 4, 0, 1]
      ∧ (arp_req [2, 0, 0, 0, 0, 1] [10, 0, 0, 1] [10, 0, 0, 9]).drop 24 = [10, 0, 0, 9])
    ∧ (mget (ArpState.mk [] []).pending [10, 0, 0, 9] ≠ none →
        arp_out [2, 0, 0, 0, 0, 1] [10, 0, 0, 1] ⟨[], []⟩ [7, 7] [10, 0, 0, 9] = (⟨[], []⟩, []))
    ∧ (arp_out [2, 0, 0, 0, 0, 1] [10, 0, 0, 1]
          (arp_out [2, 0, 0, 0, 0, 1] [10, 0, 0, 1] ⟨[], []⟩ [1, 2, 3] [10, 0, 0, 9]).1
          [7, 7] [10, 0, 0, 9]
        = ((arp_out [2, 0, 0, 0, 0, 1] [10, 0, 0, 1] ⟨[], []⟩ [1, 2, 3] [10, 0, 0, 9]).1, [])) :=
  arp_out_single_request [2, 0, 0, 0, 0, 1] [10, 0, 0, 1] ⟨[], []⟩ [1, 2, 3] [7, 7] [10, 0, 0, 9]
    (by decide) (by decide) (by decide)

/-- C5: every well-formed ARP packet (length ≥ 28, hw type Ethernet,
proto type IPv4, hw len 6, proto len 4), whatever its opcode, updates the
ARP table with `sender_ip → sender_mac`; if a pending entry exists for
`sender_ip` the saved buffer is emitted to `sender_mac` with the IPv4
ethertype and the entry removed; the REQUEST-for-our-IP reply path runs
only when no pending entry existed. -/
theorem arp_in_spec (ourMac ourIp : List Nat) (st : ArpState) (pkt pbuf : List Nat)
    (hlen : 28 ≤ pkt.length)
    (hhw : 256 * pkt.getD 0 0 + pkt.getD 1 0 = 1)
    (hpr : 256 * pkt.getD 2 0 + pkt.getD 3 0 = 0x0800)
    (hhl : pkt.getD 4 0 = 6) (hpl : pkt.getD 5 0 = 4) :
    (arp_in ourMac ourIp st pkt).1.table
        = mset st.table ((pkt.drop 14).take 4) ((pkt.drop 8).take 6)
    ∧ (mget st.pending ((pkt.drop 14).take 4) = some pbuf →
        arp_in ourMac ourIp st pkt
          = (⟨mset st.table ((pkt.drop 14).take 4) ((pkt.drop 8).take 6),
              mdel st.pending ((pkt.drop 14).take 4)⟩,
             [⟨(pkt.drop 8).take 6, 0x0800, pbuf⟩]))
    ∧ (mget st.pending ((pkt.drop 14).take 4) = none →
        (arp_in ourMac ourIp st pkt).1.pending = st.pending
        ∧ (arp_in ourMac ourIp st pkt).2
          = (if 256 * pkt.getD 6 0 + pkt.getD 7 0 = 1 ∧ (pkt.drop 24).take 4 = ourIp
             then [⟨(pkt.drop 8).take 6, 0x0806,
                    arp_resp_pkt ourMac ourIp ((pkt.drop 14).take 4) ((pkt.drop 8).take 6)⟩]
             else [])) := by
  have h1 : ¬ pkt.length < 28 := by omega
  have h2 : ¬ ¬ (256 * pkt.getD 0 0 + pkt.getD 1 0 = 1
      ∧ 256 * pkt.getD 2 0 + pkt.getD 3 0 = 0x0800
      ∧ pkt.getD 4 0 = 6 ∧ pkt.getD 5 0 = 4) := by
    simp only [not_not]
    exact ⟨hhw, hpr, hhl, hpl⟩
  rcases hp : mget st.pending ((pkt.drop 14).take 4) with _ | pb
  · have hin : arp_in ourMac ourIp st pkt
        = (if 256 * pkt.getD 6 0 + pkt.getD 7 0 = 1 ∧ (pkt.drop 24).take 4 = ourIp
           then (⟨mset st.table ((pkt.drop 14).take 4) ((pkt.drop 8).take 6), st.pending⟩,
                 [⟨(pkt.drop 8).take 6, 0x0806,
                   arp_resp_pkt ourMac ourIp ((pkt.drop 14).take 4) ((pkt.drop 8).take 6)⟩])
           else (⟨mset st.table ((pkt.drop 14).take 4) ((pkt.drop 8).take 6), st.pending⟩, [])) := by
      rw [arp_in, if_neg h1, if_neg h2]
      simp only [hp]
    refine ⟨?_, ?_, ?_⟩
    · rw [hin]; split <;> rfl
    · intro hsome
      exact absurd hsome (by simp)
    · intro _
      constructor
      · rw [hin]; split <;> rfl
      · rw [hin]
        by_cases hc : 256 * pkt.getD 6 0 + pkt.getD 7 0 = 1 ∧ (pkt.drop 24).take 4 = ourIp
        · rw [if_pos hc, if_pos hc]
        · rw [if_neg hc, if_neg hc]
  · have hin : arp_in ourMac ourIp st pkt
        = (⟨mset st.table ((pkt.drop 14).take 4) ((pkt.drop 8).take 6),
            mdel st.pending ((pkt.drop 14).take 4)⟩,
           [⟨(pkt.drop 8).take 6, 0x0800, pb⟩]) := by
      rw [arp_in, if_neg h1, if_neg h2]
      simp only [hp]
    refine ⟨?_, ?_, ?_⟩
    · rw [hin]
    · intro hsome
      injection hsome with he
      subst he
      rw [hin]
    · intro hnone
      exact absurd hnone (by simp)

/-- Witness for C5: a well-formed ARP REPLY from 10.0.0.9 while a pending
buffer for 10.0.0.9 is queued — the buffer is flushed to the sender's MAC
and the pending entry removed. -/
theorem arp_in_spec_witness :
    (arp_in [2, 0, 0, 0, 0, 1] [10, 0, 0, 1]
        ⟨[], [([10, 0, 0, 9], [5, 6])]⟩
        [0, 1, 8, 0, 6, 4, 0, 2, 0xaa, 0xbb, 0xcc, 0xdd, 0xee, 0xff,
         10, 0, 0, 9, 0, 0, 0, 0, 0, 0, 10, 0, 0, 1]).1.table
      = mset (ArpState.mk [] [([10, 0, 0, 9], [5, 6])]).table
          ((([0, 1, 8, 0, 6, 4, 0, 2, 0xaa, 0xbb, 0xcc, 0xdd, 0xee, 0xff,
              10, 0, 0, 9, 0, 0, 0, 0, 0, 0, 10, 0, 0, 1] : List Nat).drop 14).take 4)
          ((([0, 1, 8, 0, 6, 4, 0, 2, 0xaa, 0xbb, 0xcc, 0xdd, 0xee, 0xff,
              10, 0, 0, 9, 0, 0, 0, 0, 0, 0, 10, 0, 0, 1] : List Nat).drop 8).take 6)
    ∧ (mget (ArpState.mk [] [([10, 0, 0, 9], [5, 6])]).pending
          ((([0, 1, 8, 0, 6, 4, 0, 2, 0xaa, 0xbb, 0xcc, 0xdd, 0xee, 0xff,
              10, 0, 0, 9, 0, 0, 0, 0, 0, 0, 10, 0, 0, 1] : List Nat).drop 14).take 4)
          = some [5, 6] →
        arp_in [2, 0, 0, 0, 0, 1] [10, 0, 0, 1]
            ⟨[], [([10, 0, 0, 9], [5, 6])]⟩
            [0, 1, 8, 0, 6, 4, 0, 2, 0xaa, 0xbb, 0xcc, 0xdd, 0xee, 0xff,
             10, 0, 0, 9, 0, 0, 0, 0, 0, 0, 10, 0, 0, 1]
          = (⟨mset (ArpState.mk [] [([10, 0, 0, 9], [5, 6])]).table
                ((([0, 1, 8, 0, 6, 4, 0, 2, 0xaa, 0xbb, 0xcc, 0xdd, 0xee, 0xff,
                    10, 0, 0, 9, 0, 0, 0, 0, 0, 0, 10, 0, 0, 1] : List Nat).drop 14).take 4)
                ((([0, 1, 8, 0, 6, 4, 0, 2, 0xaa, 0xbb, 0xcc, 0xdd, 0xee, 0xff,
                    10, 0, 0, 9, 0, 0, 0, 0, 0, 0, 10, 0, 0, 1] : List Nat).drop 8).take 6),
              mdel (ArpState.mk [] [([10, 0, 0, 9], [5, 6])]).pending
                ((([0, 1, 8, 0, 6, 4, 0, 2, 0xaa, 0xbb, 0xcc, 0xdd, 0xee, 0xff,
                    10, 0, 0, 9, 0, 0, 0, 0, 0, 0, 10, 0, 0, 1] : List Nat).drop 14).take 4)⟩,
             [⟨(([0, 1, 8, 0, 6, 4, 0, 2, 0xaa, 0xbb, 0xcc, 0xdd, 0xee, 0xff,
                  10, 0, 0, 9, 0, 0, 0, 0, 0, 0, 10, 0, 0, 1] : List Nat).drop 8).take 6,
                0x0800, [5, 6]⟩]))
    ∧ (mget (ArpState.mk [] [([10, 0, 0, 9], [5, 6])]).pending
          ((([0, 1, 8, 0, 6, 4, 0, 2, 0xaa, 0xbb, 0xcc, 0xdd, 0xee, 0xff,
              10, 0, 0, 9, 0, 0, 0, 0, 0, 0, 10, 0, 0, 1] : List Nat).drop 14).take 4)
          = none →
        (arp_in [2, 0, 0, 0, 0, 1] [10, 0, 0, 1]
            ⟨[], [([10, 0, 0, 9], [5, 6])]⟩
            [0, 1, 8, 0, 6, 4, 0, 2, 0xaa, 0xbb, 0xcc, 0xdd, 0xee, 0xff,
             10, 0, 0, 9, 0, 0, 0, 0, 0, 0, 10, 0, 0, 1]).1.pending
          = (ArpState.mk [] [([10, 0, 0, 9], [5, 6])]).pending
        ∧ (arp_in [2, 0, 0, 0, 0, 1] [10, 0, 0, 1]
            ⟨[], [([10, 0, 0, 9], [5, 6])]⟩
            [0, 1, 8, 0, 6, 4, 0, 2, 0xaa, 0xbb, 0xcc, 0xdd, 0xee, 0xff,
             10, 0, 0, 9, 0, 0, 0, 0, 0, 0, 10, 0, 0, 1]).2
          = (if 256 * ([0, 1, 8, 0, 6, 4, 0, 2, 0xaa, 0xbb, 0xcc, 0xdd, 0xee, 0xff,
                10, 0, 0, 9, 0, 0, 0, 0, 0, 0, 10, 0, 0, 1] : List Nat).getD 6 0
              + ([0, 1, 8, 0, 6, 4, 0, 2, 0xaa, 0xbb, 0xcc, 0xdd, 0xee, 0xff,
                  10, 0, 0, 9, 0, 0, 0, 0, 0, 0, 10, 0, 0, 1] : List Nat).getD 7 0 = 1
              ∧ (([0, 1, 8, 0, 6, 4, 0, 2, 0xaa, 0xbb, 0xcc, 0xdd, 0xee, 0xff,
                  10, 0, 0, 9, 0, 0, 0, 0, 0, 0, 10, 0, 0, 1] : List Nat).drop 24).take 4
                = [10, 0, 0, 1]
             then [⟨(([0, 1, 8, 0, 6, 4, 0, 2, 0xaa, 0xbb, 0xcc, 0xdd, 0xee, 0xff,
                      10, 0, 0, 9, 0, 0, 0, 0, 0, 0, 10, 0, 0, 1] : List Nat).drop 8).take 6,
                    0x0806,
                    arp_resp_pkt [2, 0, 0, 0, 0, 1] [10, 0, 0, 1]
                      ((([0, 1, 8, 0, 6, 4, 0, 2, 0xaa, 0xbb, 0xcc, 0xdd, 0xee, 0xff,
                          10, 0, 0, 9, 0, 0, 0, 0, 0, 0, 10, 0, 0, 1] : List Nat).drop 14).take 4)
                      ((([0, 1, 8, 0, 6, 4, 0, 2, 0xaa, 0xbb, 0xcc, 0xdd, 0xee, 0xff,
                          10, 0, 0, 9, 0, 0, 0, 0, 0, 0, 10, 0, 0, 1] : List Nat).drop 8).take 6)⟩]
             else [])) :=
  arp_in_spec [2, 0, 0, 0, 0, 1] [10, 0, 0, 1] ⟨[], [([10, 0, 0, 9], [5, 6])]⟩
    [0, 1, 8, 0, 6, 4, 0, 2, 0xaa, 0xbb, 0xcc, 0xdd, 0xee, 0xff,
     10, 0, 0, 9, 0, 0, 0, 0, 0, 0, 10, 0, 0, 1] [5, 6]
    (by decide) (by decide) (by decide) (by decide) (by decide)

/-! ### IPv4 receive path (ip.c) -/

/-- What `ip_in` does with an accepted packet: hand the stripped payload to
the handler `net_in` dispatches to, or (all checks passed but no handler
registered) emit ICMP protocol-unreachable. -/
inductive IpEvent where
  | handler (proto : Nat) (payload : List Nat) (src : List Nat)
  | unreach
  deriving DecidableEq

/-- The acceptance conditions of `ip_in` (src/src/ip.c): length ≥ 20,
version 4, header length ≥ 20, total length between header length and
buffer length, header checksum recomputing (over the header with the
checksum field zeroed) to the stored value, destination IP equal to ours. -/
def ip_in_ok (our pkt : List Nat) : Prop :=
  20 ≤ pkt.length
  ∧ pkt.getD 0 0 / 16 = 4
  ∧ 20 ≤ pkt.getD 0 0 % 16 * 4
  ∧ pkt.getD 0 0 % 16 * 4 ≤ 256 * pkt.getD 2 0 + pkt.getD 3 0
  ∧ 256 * pkt.getD 2 0 + pkt.getD 3 0 ≤ pkt.length
  ∧ checksum16 (((pkt.take (pkt.getD 0 0 % 16 * 4)).set 10 0).set 11 0)
      = pkt.getD 10 0 + 256 * pkt.getD 11 0
  ∧ (pkt.drop 16).take 4 = our

instance (our pkt : List Nat) : Decidable (ip_in_ok our pkt) := by
  unfold ip_in_ok; infer_instance

/-- `ip_in` (src/src/ip.c) over the received bytes: each failed check drops
the packet silently; an accepted packet is trimmed to the stated total
length, stripped of its header, and dispatched by protocol number
(`reg` is the protocol registry; with no handler registered the header is
restored and ICMP protocol-unreachable emitted). -/
def ip_in (reg : Nat → Bool) (our pkt : List Nat) : List IpEvent :=
  if pkt.length < 20 then []
  else if pkt.getD 0 0 / 16 ≠ 4 then []
  else if pkt.getD 0 0 % 16 * 4 < 20 then []
  else if pkt.length < 256 * pkt.getD 2 0 + pkt.getD 3 0
      ∨ 256 * pkt.getD 2 0 + pkt.getD 3 0 < pkt.getD 0 0 % 16 * 4 then []
  else if checksum16 (((pkt.take (pkt.getD 0 0 % 16 * 4)).set 10 0).set 11 0)
      ≠ pkt.getD 10 0 + 256 * pkt.getD 11 0 then []
  else if (pkt.drop 16).take 4 ≠ our then []
  else if reg (pkt.getD 9 0) then
    [.handler (pkt.getD 9 0)
      ((pkt.take (256 * pkt.getD 2 0 + pkt.getD 3 0)).drop (pkt.getD 0 0 % 16 * 4))
      ((pkt.drop 12).take 4)]
  else [.unreach]

/-- C1: with a handler registered for the packet's protocol number, `ip_in`
invokes it exactly once — with the padding-trimmed, header-stripped payload
— if and only if all the header checks pass; a packet failing any check
produces no event at all. -/
theorem ip_in_dispatch (reg : Nat → Bool) (our pkt : List Nat)
    (hreg : reg (pkt.getD 9 0) = true) :
    (ip_in reg our pkt
        = [.handler (pkt.getD 9 0)
            ((pkt.take (256 * pkt.getD 2 0 + pkt.getD 3 0)).drop (pkt.getD 0 0 % 16 * 4))
            ((pkt.drop 12).take 4)]
      ↔ ip_in_ok our pkt)
    ∧ (¬ ip_in_ok our pkt → ip_in reg our pkt = []) := by
  have hneg : ¬ ip_in_ok our pkt → ip_in reg our pkt = [] := by
    intro h
    rw [ip_in]
    split_ifs with h1 h2 h3 h4 h5 h6 <;> try rfl
    all_goals exact absurd ⟨by omega, by omega, by omega, by omega, by omega,
      not_not.mp h5, not_not.mp h6⟩ h
  have hpos : ip_in_ok our pkt → ip_in reg our pkt
      = [.handler (pkt.getD 9 0)
          ((pkt.take (256 * pkt.getD 2 0 + pkt.getD 3 0)).drop (pkt.getD 0 0 % 16 * 4))
          ((pkt.drop 12).take 4)] := by
    intro h
    obtain ⟨c1, c2, c3, c4, c5, c6, c7⟩ := h
    rw [ip_in, if_neg (by omega), if_neg (by omega), if_neg (by omega),
      if_neg (by omega), if_neg (not_not_intro c6), if_neg (not_not_intro c7),
      if_pos hreg]
  refine ⟨⟨?_, hpos⟩, hneg⟩
  intro he
  by_cases hok : ip_in_ok our pkt
  · exact hok
  · rw [hneg hok] at he
    exact absurd he (by simp)

/-- Witness for C1: a minimal valid 24-byte UDP-in-IPv4 packet to
10.0.0.1 with correct header checksum, every protocol registered. -/
theorem ip_in_dispatch_witness :
    (ip_in (fun _ => true) [10, 0, 0, 1]
        [0x45, 0, 0, 24, 0, 0, 0, 0, 64, 17, 102, 211, 10, 0, 0, 2, 10, 0, 0, 1, 1, 2, 3, 4]
        = [.handler (([0x45, 0, 0, 24, 0, 0, 0, 0, 64, 17, 102, 211, 10, 0, 0, 2,
              10, 0, 0, 1, 1, 2, 3, 4] : List Nat).getD 9 0)
            ((([0x45, 0, 0, 24, 0, 0, 0, 0, 64, 17, 102, 211, 10, 0, 0, 2,
                10, 0, 0, 1, 1, 2, 3, 4] : List Nat).take
              (256 * ([0x45, 0, 0, 24, 0, 0, 0, 0, 64, 17, 102, 211, 10, 0, 0, 2,
                  10, 0, 0, 1, 1, 2, 3, 4] : List Nat).getD 2 0
                + ([0x45, 0, 0, 24, 0, 0, 0, 0, 64, 17, 102, 211, 10, 0, 0, 2,
                    10, 0, 0, 1, 1, 2, 3, 4] : List Nat).getD 3 0)).drop
              (([0x45, 0, 0, 24, 0, 0, 0, 0, 64, 17, 102, 211, 10, 0, 0, 2,
                  10, 0, 0, 1, 1, 2, 3, 4] : List Nat).getD 0 0 % 16 * 4))
            ((([0x45, 0, 0, 24, 0, 0, 0, 0, 64, 17, 102, 211, 10, 0, 0, 2,
                10, 0, 0, 1, 1, 2, 3, 4] : List Nat).drop 12).take 4)]
      ↔ ip_in_ok [10, 0, 0, 1]
          [0x45, 0, 0, 24, 0, 0, 0, 0, 64, 17, 102, 211, 10, 0, 0, 2, 10, 0, 0, 1, 1, 2, 3, 4])
    ∧ (¬ ip_in_ok [10, 0, 0, 1]
          [0x45, 0, 0, 24, 0, 0, 0, 0, 64, 17, 102, 211, 10, 0, 0, 2, 10, 0, 0, 1, 1, 2, 3, 4] →
        ip_in (fun _ => true) [10, 0, 0, 1]
          [0x45, 0, 0, 24, 0, 0, 0, 0, 64, 17, 102, 211, 10, 0, 0, 2, 10, 0, 0, 1, 1, 2, 3, 4]
          = []) :=
  ip_in_dispatch (fun _ => true) [10, 0, 0, 1]
    [0x45, 0, 0, 24, 0, 0, 0, 0, 64, 17, 102, 211, 10, 0, 0, 2, 10, 0, 0, 1, 1, 2, 3, 4] rfl

/-- The checks of `ip_in_ok` hold at the witness packet (so the witness's
left-to-right direction is not vacuous): evaluated by `decide`. -/
theorem ip_in_ok_holds_at_witness :
    ip_in_ok [10, 0, 0, 1]
      [0x45, 0, 0, 24, 0, 0, 0, 0, 64, 17, 102, 211, 10, 0, 0, 2, 10, 0, 0, 1, 1, 2, 3, 4] := by
  decide

/-! ### ICMPv4 ping client (icmp.c) -/

/-- `icmp_ping_request` (src/src/icmp.c): the echo-request message handed
to `ip_out` — 56 payload bytes `i % 256`, an 8-byte header with
`type = ECHO_REQUEST`, `code = 0`, and `id16 = icmp_ping_id`,
`seq16 = icmp_stats.sent` stored WITHOUT `swap16`, i.e. in host
little-endian byte order; then the checksum (even length, so the
`checksum16` branch). -/
def icmp_ping_request_pkt (pingId sent : Nat) : List Nat :=
  let m := [8, 0, 0, 0, pingId % 256, pingId / 256 % 256, sent % 256, sent / 256 % 256]
    ++ (List.range 56).map (fun i => i % 256)
  let v := icmpRespCk m
  (m.set 2 (v % 256)).set 3 (v / 256)

/-- Counterexample for C7: with ping id 258 = 0x0102, the id field goes on
the wire as bytes (2, 1) — host little-endian — not as the big-endian
(1, 2) the claim asserts. -/
theorem icmp_ping_request_endianness_counterexample :
    (icmp_ping_request_pkt 258 7).getD 4 0 = 2
    ∧ (icmp_ping_request_pkt 258 7).getD 5 0 = 1
    ∧ ¬ ((icmp_ping_request_pkt 258 7).getD 4 0 = 258 / 256
        ∧ (icmp_ping_request_pkt 258 7).getD 5 0 = 258 % 256) := by
  refine ⟨by decide, by decide, by decide⟩

/-- C7 (amended): the echo request built by `icmp_ping_request` has
type 8, code 0, length 64, and carries `id = ping id` and
`seq = stats.sent` in host little-endian byte order (low byte first),
not byte-swapped to big-endian like every other wire field. -/
theorem icmp_ping_request_id_seq_host_order (pingId sent : Nat) :
    (icmp_ping_request_pkt pingId sent).getD 0 0 = 8
    ∧ (icmp_ping_request_pkt pingId sent).getD 1 0 = 0
    ∧ (icmp_ping_request_pkt pingId sent).getD 4 0 = pingId % 256
    ∧ (icmp_ping_request_pkt pingId sent).getD 5 0 = pingId / 256 % 256
    ∧ (icmp_ping_request_pkt pingId sent).getD 6 0 = sent % 256
    ∧ (icmp_ping_request_pkt pingId sent).getD 7 0 = sent / 256 % 256
    ∧ (icmp_ping_request_pkt pingId sent).length = 64 := by
  refine ⟨?_, ?_, ?_, ?_, ?_, ?_, ?_⟩ <;>
    simp [icmp_ping_request_pkt, List.set, List.getD, List.cons_append]

/-! ### UDP receive path and port unreachable (udp.c, icmp.c)

A buffer is modelled as the bytes before the current data start (`front`,
most recently removed header last) and the data itself; `buf_add_header n`
(modelled from the spec: the buffer source is not under src/) moves the
data start back `n` bytes, re-exposing the last `n` bytes of `front` —
in the UDP path, the IP header that `ip_in` removed. -/

/-- `transport_checksum` — modelled from the spec: the pseudo-header
`src_ip ‖ dst_ip ‖ 0 ‖ protocol ‖ length` (length big-endian) followed by
the transport segment, summed with the same host-word convention as
`checksum16`. -/
def transport_checksum (proto : Nat) (seg : List Nat) (src dst : List Nat) : Nat :=
  checksum16 (src ++ dst ++ [0, proto]
    ++ [seg.length / 256 % 256, seg.length % 256] ++ seg)

/-- The ICMP message body `icmp_unreachable` (src/src/icmp.c) assembles
before the checksum is patched in: 8-byte header (type 3, the given code,
zero checksum/id/seq) followed by the IP header (`hdr_len * 4` bytes read
from the buffer) plus the first 8 bytes of the IP payload (or all of it if
shorter). -/
def icmp_unreachable_body (l : List Nat) (code : Nat) : List Nat :=
  [3, code, 0, 0, 0, 0, 0, 0] ++ l.take (l.getD 0 0 % 16 * 4
    + (if l.length < l.getD 0 0 % 16 * 4 + 8 then l.length - l.getD 0 0 % 16 * 4 else 8))

/-- `icmp_unreachable` (src/src/icmp.c): the finished message, with the
`icmpUnreachCk` checksum stored into the little-endian checksum field. -/
def icmp_unreachable_msg (l : List Nat) (code : Nat) : List Nat :=
  ((icmp_unreachable_body l code).set 2 (icmpUnreachCk (icmp_unreachable_body l code) % 256)).set 3
    (icmpUnreachCk (icmp_unreachable_body l code) / 256)

/-- An emission of the UDP layer: a handler invocation or the
`icmp_unreachable` message handed to `ip_out`. -/
inductive UdpEvent where
  | handler (payload : List Nat) (srcIp : List Nat) (srcPort : Nat)
  | icmp (msg : List Nat) (dst : List Nat)
  deriving DecidableEq

/-- `udp_in` (src/src/udp.c) on a buffer with hidden prefix `front` and
data `l`: drop short datagrams, datagrams whose stated total length
exceeds the buffer, and datagrams whose pseudo-header checksum (computed
with the checksum field zeroed — the source does not restore it) does not
match; with a handler registered for the destination port invoke it on the
payload, otherwise move the data start back 20 bytes (re-exposing the IP
header) and emit port-unreachable. -/
def udp_in (handlers : Nat → Bool) (ourIp srcIp front l : List Nat) : List UdpEvent :=
  if l.length < 8 then []
  else if l.length < 256 * l.getD 4 0 + l.getD 5 0 then []
  else if transport_checksum 17 ((l.set 6 0).set 7 0) srcIp ourIp
      ≠ l.getD 6 0 + 256 * l.getD 7 0 then []
  else if handlers (256 * l.getD 2 0 + l.getD 3 0) then
    [.handler (((l.set 6 0).set 7 0).drop 8) srcIp (256 * l.getD 0 0 + l.getD 1 0)]
  else
    [.icmp (icmp_unreachable_msg
        (front.drop (front.length - 20) ++ (l.set 6 0).set 7 0) 3) srcIp]

/-- C8 (amended): an accepted UDP datagram with no handler for its
destination port causes exactly one ICMP message with type 3, code 3,
whose payload after the 8-byte ICMP header is the original 20-byte IP
header followed by the first 8 bytes of the original IP payload with the
UDP checksum field (bytes 6-7) zeroed — `udp_in` zeroes it for
verification and never restores it.  With a handler registered, no ICMP is
emitted and the handler runs once on the datagram minus its UDP header. -/
theorem udp_in_port_unreachable (handlers : Nat → Bool)
    (ourIp srcIp pre ihdr l : List Nat)
    (hihdr : ihdr.length = 20) (hihl : ihdr.getD 0 0 % 16 = 5)
    (hlen : 8 ≤ l.length)
    (htot : 256 * l.getD 4 0 + l.getD 5 0 ≤ l.length)
    (hck : transport_checksum 17 ((l.set 6 0).set 7 0) srcIp ourIp
      = l.getD 6 0 + 256 * l.getD 7 0) :
    (handlers (256 * l.getD 2 0 + l.getD 3 0) = true →
      udp_in handlers ourIp srcIp (pre ++ ihdr) l
        = [.handler (l.drop 8) srcIp (256 * l.getD 0 0 + l.getD 1 0)])
    ∧ (handlers (256 * l.getD 2 0 + l.getD 3 0) = false →
      udp_in handlers ourIp srcIp (pre ++ ihdr) l
        = [.icmp (icmp_unreachable_msg (ihdr ++ (l.set 6 0).set 7 0) 3) srcIp]
      ∧ (icmp_unreachable_msg (ihdr ++ (l.set 6 0).set 7 0) 3).getD 0 0 = 3
      ∧ (icmp_unreachable_msg (ihdr ++ (l.set 6 0).set 7 0) 3).getD 1 0 = 3
      ∧ (icmp_unreachable_msg (ihdr ++ (l.set 6 0).set 7 0) 3).drop 8
          = ihdr ++ ((l.set 6 0).set 7 0).take 8
      ∧ (icmp_unreachable_msg (ihdr ++ (l.set 6 0).set 7 0) 3).length = 36) := by
  have h1 : ¬ l.length < 8 := by omega
  have h2 : ¬ l.length < 256 * l.getD 4 0 + l.getD 5 0 := by omega
  have h3 : ¬ (transport_checksum 17 ((l.set 6 0).set 7 0) srcIp ourIp
      ≠ l.getD 6 0 + 256 * l.getD 7 0) := not_not_intro hck
  have hrestore : (pre ++ ihdr).drop ((pre ++ ihdr).length - 20) = ihdr := by
    apply List.drop_left'
    simp [hihdr]
  have hzlen : ((l.set 6 0).set 7 0).length = l.length := by simp
  have hgetD0 : (ihdr ++ (l.set 6 0).set 7 0).getD 0 0 = ihdr.getD 0 0 :=
    List.getD_append _ _ _ _ (by omega)
  have hbody : icmp_unreachable_body (ihdr ++ (l.set 6 0).set 7 0) 3
      = [3, 3, 0, 0, 0, 0, 0, 0] ++ (ihdr ++ ((l.set 6 0).set 7 0).take 8) := by
    rw [icmp_unreachable_body, hgetD0, hihl]
    have hlap : (ihdr ++ (l.set 6 0).set 7 0).length = 20 + l.length := by
      simp [hihdr]
    rw [if_neg (by omega)]
    congr 1
    rw [List.take_append_eq_append_take]
    congr 1
    · exact List.take_of_length_le (by omega)
    · congr 1
      omega
  constructor
  · intro hh
    rw [udp_in, if_neg h1, if_neg h2, if_neg h3, if_pos hh]
    rw [List.drop_set_of_lt 0 _ (by omega), List.drop_set_of_lt 0 _ (by omega)]
  · intro hh
    refine ⟨?_, ?_, ?_, ?_, ?_⟩
    · rw [udp_in, if_neg h1, if_neg h2, if_neg h3, if_neg (by rw [hh]; simp),
        hrestore]
    · rw [icmp_unreachable_msg, hbody]
      rfl
    · rw [icmp_unreachable_msg, hbody]
      rfl
    · rw [icmp_unreachable_msg, hbody]
      rw [List.drop_set_of_lt _ _ (by omega), List.drop_set_of_lt _ _ (by omega)]
      rfl
    · rw [icmp_unreachable_msg, hbody]
      simp [hihdr]
      omega

/-- Counterexample for C8 as stated: a valid 13-byte UDP datagram to a
port with no handler (stored checksum 0x6A2E ≠ 0) produces an ICMP
port-unreachable whose payload is NOT the original IP header plus the
first 8 bytes of the original IP payload — the UDP checksum bytes inside
the quoted payload read zero, because `udp_in` zeroed them during
verification and never restored them. -/
theorem udp_in_port_unreachable_counterexample :
    udp_in (fun _ => false) [10, 0, 0, 1] [10, 0, 0, 2]
        [0x45, 0, 0, 33, 0, 0, 0, 0, 64, 17, 0, 0, 10, 0, 0, 2, 10, 0, 0, 1]
        [3, 232, 39, 15, 0, 13, 46, 106, 104, 105, 33, 7, 9]
      = [.icmp (icmp_unreachable_msg
          ([0x45, 0, 0, 33, 0, 0, 0, 0, 64, 17, 0, 0, 10, 0, 0, 2, 10, 0, 0, 1]
            ++ (([3, 232, 39, 15, 0, 13, 46, 106, 104, 105, 33, 7, 9] : List Nat).set 6 0).set 7 0)
          3) [10, 0, 0, 2]]
    ∧ (icmp_unreachable_msg
          ([0x45, 0, 0, 33, 0, 0, 0, 0, 64, 17, 0, 0, 10, 0, 0, 2, 10, 0, 0, 1]
            ++ (([3, 232, 39, 15, 0, 13, 46, 106, 104, 105, 33, 7, 9] : List Nat).set 6 0).set 7 0)
          3).drop 8
        ≠ [0x45, 0, 0, 33, 0, 0, 0, 0, 64, 17, 0, 0, 10, 0, 0, 2, 10, 0, 0, 1]
          ++ ([3, 232, 39, 15, 0, 13, 46, 106, 104, 105, 33, 7, 9] : List Nat).take 8 :=
  ⟨by decide, by decide⟩

/-- Witness for C8 (amended) at the same concrete datagram. -/
theorem udp_in_port_unreachable_witness :
    ((fun _ => false : Nat → Bool)
        (256 * ([3, 232, 39, 15, 0, 13, 46, 106, 104, 105, 33, 7, 9] : List Nat).getD 2 0
          + ([3, 232, 39, 15, 0, 13, 46, 106, 104, 105, 33, 7, 9] : List Nat).getD 3 0) = true →
      udp_in (fun _ => false) [10, 0, 0, 1] [10, 0, 0, 2]
          ([] ++ [0x45, 0, 0, 33, 0, 0, 0, 0, 64, 17, 0, 0, 10, 0, 0, 2, 10, 0, 0, 1])
          [3, 232, 39, 15, 0, 13, 46, 106, 104, 105, 33, 7, 9]
        = [.handler (([3, 232, 39, 15, 0, 13, 46, 106, 104, 105, 33, 7, 9] : List Nat).drop 8)
            [10, 0, 0, 2]
            (256 * ([3, 232, 39, 15, 0, 13, 46, 106, 104, 105, 33, 7, 9] : List Nat).getD 0 0
              + ([3, 232, 39, 15, 0, 13, 46, 106, 104, 105, 33, 7, 9] : List Nat).getD 1 0)])
    ∧ ((fun _ => false : Nat → Bool)
        (256 * ([3, 232, 39, 15, 0, 13, 46, 106, 104, 105, 33, 7, 9] : List Nat).getD 2 0
          + ([3, 232, 39, 15, 0, 13, 46, 106, 104, 105, 33, 7, 9] : List Nat).getD 3 0) = false →
      udp_in (fun _ => false) [10, 0, 0, 1] [10, 0, 0, 2]
          ([] ++ [0x45, 0, 0, 33, 0, 0, 0, 0, 64, 17, 0, 0, 10, 0, 0, 2, 10, 0, 0, 1])
          [3, 232, 39, 15, 0, 13, 46, 106, 104, 105, 33, 7, 9]
        = [.icmp (icmp_unreachable_msg
            ([0x45, 0, 0, 33, 0, 0, 0, 0, 64, 17, 0, 0, 10, 0, 0, 2, 10, 0, 0, 1]
              ++ (([3, 232, 39, 15, 0, 13, 46, 106, 104, 105, 33, 7, 9] : List Nat).set 6 0).set 7 0)
            3) [10, 0, 0, 2]]
      ∧ (icmp_unreachable_msg
          ([0x45, 0, 0, 33, 0, 0, 0, 0, 64, 17, 0, 0, 10, 0, 0, 2, 10, 0, 0, 1]
            ++ (([3, 232, 39, 15, 0, 13, 46, 106, 104, 105, 33, 7, 9] : List Nat).set 6 0).set 7 0)
          3).getD 0 0 = 3
      ∧ (icmp_unreachable_msg
          ([0x45, 0, 0, 33, 0, 0, 0, 0, 64, 17, 0, 0, 10, 0, 0, 2, 10, 0, 0, 1]
            ++ (([3, 232, 39, 15, 0, 13, 46, 106, 104, 105, 33, 7, 9] : List Nat).set 6 0).set 7 0)
          3).getD 1 0 = 3
      ∧ (icmp_unreachable_msg
          ([0x45, 0, 0, 33, 0, 0, 0, 0, 64, 17, 0, 0, 10, 0, 0, 2, 10, 0, 0, 1]
            ++ (([3, 232, 39, 15, 0, 13, 46, 106, 104, 105, 33, 7, 9] : List Nat).set 6 0).set 7 0)
          3).drop 8
          = [0x45, 0, 0, 33, 0, 0, 0, 0, 64, 17, 0, 0, 10, 0, 0, 2, 10, 0, 0, 1]
            ++ ((([3, 232, 39, 15, 0, 13, 46, 106, 104, 105, 33, 7, 9] : List Nat).set 6 0).set 7 0).take 8
      ∧ (icmp_unreachable_msg
          ([0x45, 0, 0, 33, 0, 0, 0, 0, 64, 17, 0, 0, 10, 0, 0, 2, 10, 0, 0, 1]
            ++ (([3, 232, 39, 15, 0, 13, 46, 106, 104, 105, 33, 7, 9] : List Nat).set 6 0).set 7 0)
          3).length = 36) :=
  udp_in_port_unreachable (fun _ => false) [10, 0, 0, 1] [10, 0, 0, 2] []
    [0x45, 0, 0, 33, 0, 0, 0, 0, 64, 17, 0, 0, 10, 0, 0, 2, 10, 0, 0, 1]
    [3, 232, 39, 15, 0, 13, 46, 106, 104, 105, 33, 7, 9]
    (by decide) (by decide) (by decide) (by decide) (by decide)

/-! ### IPv6 receive path and the ICMPv6 checksum destination (ipv6.c, icmpv6.c) -/

def allNodesMulticast : List Nat :=
  [0xff, 0x02, 0, 0, 0, 0, 0, 0, 0, 0, 0, 0, 0, 0, 0, 1]

/-- `icmpv6_checksum` (src/src/icmpv6.c): big-endian 16-bit word sum of the
pseudo-header (source address, destination address, 32-bit upper-layer
length, next-header 58) and the message (trailing odd byte shifted high),
carries folded, complemented, and the result returned through `swap16`. -/
def icmpv6_checksum (msg src dst : List Nat) : Nat :=
  swap16 (65535 - foldCarry (sumBE src + sumBE dst
    + msg.length / 65536 % 65536 + msg.length % 65536 + 58 + sumBE msg))

/-- Storing a checksum value into the little-endian `checksum16` field
(bytes 2-3) of an ICMPv6 message. -/
def icmpv6_fill_checksum (msg : List Nat) (v : Nat) : List Nat :=
  (msg.set 2 (v % 256)).set 3 (v / 256)

/-- The length + checksum gate of `icmpv6_in` (src/src/icmpv6.c): the
received checksum field is compared against `icmpv6_checksum` computed
with the node's unicast address `net_if_ipv6` as destination — never the
packet's actual destination, which `ipv6_in` has already stripped. -/
def icmpv6_in_accepts (our6 src msg : List Nat) : Bool :=
  if msg.length < 4 then false
  else decide (icmpv6_checksum ((msg.set 2 0).set 3 0) src our6
    = msg.getD 2 0 + 256 * msg.getD 3 0)

/-- `ipv6_in` (src/src/ipv6.c) as the (next-header, source, payload)
triple it dispatches, `none` when the packet is dropped: length ≥ 40,
version 6, stated payload length within the buffer, destination either our
unicast address or (first byte 0xff) the all-nodes multicast. -/
def ipv6_in (our6 pkt : List Nat) : Option (Nat × List Nat × List Nat) :=
  if pkt.length < 40 then none
  else if pkt.getD 0 0 / 16 ≠ 6 then none
  else if pkt.length - 40 < 256 * pkt.getD 4 0 + pkt.getD 5 0 then none
  else if ¬ ((pkt.drop 24).take 16 = our6
      ∨ (((pkt.drop 24).take 16).getD 0 0 = 0xff
          ∧ (pkt.drop 24).take 16 = allNodesMulticast)) then none
  else some (pkt.getD 6 0, ((pkt.drop 8).take 16,
    (pkt.take (40 + (256 * pkt.getD 4 0 + pkt.getD 5 0))).drop 40))

/-- A well-formed IPv6 packet as a remote sender builds it: version 6,
zero traffic class and flow label, big-endian payload length, the given
next header, hop limit 255. -/
def mkIpv6Pkt (src dst : List Nat) (next : Nat) (payload : List Nat) : List Nat :=
  [0x60, 0, 0, 0, payload.length / 256 % 256, payload.length % 256, next, 255]
    ++ (src ++ (dst ++ payload))

theorem swap16_lt (v : Nat) : swap16 v < 65536 := by
  unfold swap16; omega

theorem icmpv6_checksum_lt (msg src dst : List Nat) :
    icmpv6_checksum msg src dst < 65536 := by
  unfold icmpv6_checksum; exact swap16_lt _

theorem fill_length (l : List Nat) (v : Nat) :
    (icmpv6_fill_checksum l v).length = l.length := by
  simp [icmpv6_fill_checksum]

theorem fill_getD2 (l : List Nat) (v : Nat) (h : 2 < l.length) :
    (icmpv6_fill_checksum l v).getD 2 0 = v % 256 := by
  unfold icmpv6_fill_checksum
  rw [List.getD_eq_getElem?_getD, List.getElem?_set_ne (by omega),
    List.getElem?_set_eq_of_lt _ (by simpa using h)]
  rfl

theorem fill_getD3 (l : List Nat) (v : Nat) (h : 3 < l.length) :
    (icmpv6_fill_checksum l v).getD 3 0 = v / 256 := by
  unfold icmpv6_fill_checksum
  rw [List.getD_eq_getElem?_getD, List.getElem?_set_eq_of_lt _ (by simpa using h)]
  rfl

/-- Zeroing the checksum field of a message whose field was just filled
recovers the zeroed message. -/
theorem fill_then_zero (l : List Nat) (v : Nat) :
    ((icmpv6_fill_checksum ((l.set 2 0).set 3 0) v).set 2 0).set 3 0
      = (l.set 2 0).set 3 0 := by
  apply List.ext_getElem?
  intro n
  by_cases h2 : n = 2
  · subst h2
    simp [icmpv6_fill_checksum, List.getElem?_set]
  · by_cases h3 : n = 3
    · subst h3
      simp [icmpv6_fill_checksum, List.getElem?_set]
    · simp [icmpv6_fill_checksum, List.getElem?_set_ne (by omega : 3 ≠ n),
        List.getElem?_set_ne (by omega : 2 ≠ n)]

/-- C10: `icmpv6_in` verifies checksums only against the node's unicast
address.  An ICMPv6 packet addressed to the all-nodes multicast `ff02::1`
is accepted and delivered by `ipv6_in`, but if its sender computed the
checksum against that multicast destination (and the unicast and
multicast addresses have different word sums mod 65535, as any EUI-64
link-local address does against `ff02::1`'s 0xff03), `icmpv6_in` drops
it; only a packet checksummed against the unicast address passes. -/
theorem icmpv6_checksum_unicast_only (our6 src msg : List Nat)
    (hsrc : src.length = 16) (hmsg4 : 4 ≤ msg.length) (hmsgB : msg.length < 65536)
    (hsum : sumBE our6 % 65535 ≠ sumBE allNodesMulticast % 65535) :
    ipv6_in our6 (mkIpv6Pkt src allNodesMulticast 58
        (icmpv6_fill_checksum ((msg.set 2 0).set 3 0)
          (icmpv6_checksum ((msg.set 2 0).set 3 0) src allNodesMulticast)))
      = some (58, (src, icmpv6_fill_checksum ((msg.set 2 0).set 3 0)
          (icmpv6_checksum ((msg.set 2 0).set 3 0) src allNodesMulticast)))
    ∧ icmpv6_in_accepts our6 src
        (icmpv6_fill_checksum ((msg.set 2 0).set 3 0)
          (icmpv6_checksum ((msg.set 2 0).set 3 0) src allNodesMulticast)) = false
    ∧ icmpv6_in_accepts our6 src
        (icmpv6_fill_checksum ((msg.set 2 0).set 3 0)
          (icmpv6_checksum ((msg.set 2 0).set 3 0) src our6)) = true := by
  have hzlen : ((msg.set 2 0).set 3 0).length = msg.length := by simp
  set z := (msg.set 2 0).set 3 0 with hz
  set cM := icmpv6_checksum z src allNodesMulticast with hcM
  set cU := icmpv6_checksum z src our6 with hcU
  set W := icmpv6_fill_checksum z cM with hW
  have hWlen : W.length = msg.length := by rw [hW, fill_length, hzlen]
  have hcMlt : cM < 65536 := icmpv6_checksum_lt z src allNodesMulticast
  have hcUlt : cU < 65536 := icmpv6_checksum_lt z src our6
  have hne : cU ≠ cM := by
    rw [hcU, hcM]
    unfold icmpv6_checksum
    intro he
    set s1 := sumBE src + sumBE our6
      + z.length / 65536 % 65536 + z.length % 65536 + 58 + sumBE z with hs1
    set s2 := sumBE src + sumBE allNodesMulticast
      + z.length / 65536 % 65536 + z.length % 65536 + 58 + sumBE z with hs2
    have f1 := foldCarry_lt s1
    have f2 := foldCarry_lt s2
    have m1 := foldCarry_mod s1
    have m2 := foldCarry_mod s2
    unfold swap16 at he
    have hfeq : foldCarry s1 = foldCarry s2 := by omega
    rw [hfeq] at m1
    omega
  have hrestoreW : (W.set 2 0).set 3 0 = z := by
    rw [hW, hz]
    exact fill_then_zero msg cM
  refine ⟨?_, ?_, ?_⟩
  · set pkt := mkIpv6Pkt src allNodesMulticast 58 W with hp
    have hplen : pkt.length = 40 + msg.length := by
      rw [hp, mkIpv6Pkt]
      simp [hsrc, hWlen, allNodesMulticast]
      omega
    have hg0 : pkt.getD 0 0 = 0x60 := by
      rw [hp, mkIpv6Pkt, List.getD_append _ _ _ _ (by simp)]
      rfl
    have hg4 : pkt.getD 4 0 = msg.length / 256 % 256 := by
      rw [hp, mkIpv6Pkt, List.getD_append _ _ _ _ (by simp)]
      show W.length / 256 % 256 = msg.length / 256 % 256
      rw [hWlen]
    have hg5 : pkt.getD 5 0 = msg.length % 256 := by
      rw [hp, mkIpv6Pkt, List.getD_append _ _ _ _ (by simp)]
      show W.length % 256 = msg.length % 256
      rw [hWlen]
    have hg6 : pkt.getD 6 0 = 58 := by
      rw [hp, mkIpv6Pkt, List.getD_append _ _ _ _ (by simp)]
      rfl
    have hdrop8 : pkt.drop 8 = src ++ (allNodesMulticast ++ W) := by
      rw [hp, mkIpv6Pkt]
      exact List.drop_left' rfl
    have hdst : (pkt.drop 24).take 16 = allNodesMulticast := by
      rw [show (24 : Nat) = 8 + 16 by rfl, ← List.drop_drop, hdrop8,
        List.drop_left' hsrc,
        List.take_left' (show allNodesMulticast.length = 16 from rfl)]
    have hsrcslice : (pkt.drop 8).take 16 = src := by
      rw [hdrop8, List.take_left' hsrc]
    have hplen2 : 256 * pkt.getD 4 0 + pkt.getD 5 0 = msg.length := by
      rw [hg4, hg5]; omega
    have hpay : (pkt.take (40 + (256 * pkt.getD 4 0 + pkt.getD 5 0))).drop 40 = W := by
      rw [hplen2, List.take_of_length_le (by omega),
        show (40 : Nat) = 8 + 32 by rfl, ← List.drop_drop, hdrop8,
        show (32 : Nat) = 16 + 16 by rfl, ← List.drop_drop, List.drop_left' hsrc,
        List.drop_left' (show allNodesMulticast.length = 16 from rfl)]
    rw [ipv6_in, if_neg (by omega),
      if_neg (by rw [hg0]; decide),
      if_neg (by rw [hplen2]; omega),
      if_neg (by
        rw [hdst]
        exact not_not_intro (Or.inr ⟨by decide, rfl⟩)),
      hg6, hsrcslice, hpay]
  · rw [icmpv6_in_accepts, if_neg (by omega), hrestoreW, ← hcU]
    have hold2 : W.getD 2 0 = cM % 256 := by
      rw [hW]; exact fill_getD2 z cM (by omega)
    have hold3 : W.getD 3 0 = cM / 256 := by
      rw [hW]; exact fill_getD3 z cM (by omega)
    rw [hold2, hold3, show cM % 256 + 256 * (cM / 256) = cM by omega]
    exact decide_eq_false hne
  · rw [icmpv6_in_accepts,
      if_neg (by rw [fill_length, hzlen]; omega),
      show ((icmpv6_fill_checksum z cU).set 2 0).set 3 0 = z from
        (hz ▸ fill_then_zero msg cU), ← hcU]
    have hold2 : (icmpv6_fill_checksum z cU).getD 2 0 = cU % 256 :=
      fill_getD2 z cU (by omega)
    have hold3 : (icmpv6_fill_checksum z cU).getD 3 0 = cU / 256 :=
      fill_getD3 z cU (by omega)
    rw [hold2, hold3, show cU % 256 + 256 * (cU / 256) = cU by omega]
    simp

/-- Witness for C10 at the spec's example node (link-local of MAC
02:11:22:33:44:55), a link-local source, and an echo request id 1 seq 1. -/
theorem icmpv6_checksum_unicast_only_witness :
    ipv6_in [0xfe, 0x80, 0, 0, 0, 0, 0, 0, 0x00, 0x11, 0x22, 0xff, 0xfe, 0x33, 0x44, 0x55]
        (mkIpv6Pkt [0xfe, 0x80, 0, 0, 0, 0, 0, 0, 0, 0, 0, 0xff, 0xfe, 0, 0, 9]
          allNodesMulticast 58
          (icmpv6_fill_checksum ((([128, 0, 0, 0, 0, 1, 0, 1] : List Nat).set 2 0).set 3 0)
            (icmpv6_checksum ((([128, 0, 0, 0, 0, 1, 0, 1] : List Nat).set 2 0).set 3 0)
              [0xfe, 0x80, 0, 0, 0, 0, 0, 0, 0, 0, 0, 0xff, 0xfe, 0, 0, 9]
              allNodesMulticast)))
      = some (58, ([0xfe, 0x80, 0, 0, 0, 0, 0, 0, 0, 0, 0, 0xff, 0xfe, 0, 0, 9],
          icmpv6_fill_checksum ((([128, 0, 0, 0, 0, 1, 0, 1] : List Nat).set 2 0).set 3 0)
            (icmpv6_checksum ((([128, 0, 0, 0, 0, 1, 0, 1] : List Nat).set 2 0).set 3 0)
              [0xfe, 0x80, 0, 0, 0, 0, 0, 0, 0, 0, 0, 0xff, 0xfe, 0, 0, 9]
              allNodesMulticast)))
    ∧ icmpv6_in_accepts
        [0xfe, 0x80, 0, 0, 0, 0, 0, 0, 0x00, 0x11, 0x22, 0xff, 0xfe, 0x33, 0x44, 0x55]
        [0xfe, 0x80, 0, 0, 0, 0, 0, 0, 0, 0, 0, 0xff, 0xfe, 0, 0, 9]
        (icmpv6_fill_checksum ((([128, 0, 0, 0, 0, 1, 0, 1] : List Nat).set 2 0).set 3 0)
          (icmpv6_checksum ((([128, 0, 0, 0, 0, 1, 0, 1] : List Nat).set 2 0).set 3 0)
            [0xfe, 0x80, 0, 0, 0, 0, 0, 0, 0, 0, 0, 0xff, 0xfe, 0, 0, 9]
            allNodesMulticast)) = false
    ∧ icmpv6_in_accepts
        [0xfe, 0x80, 0, 0, 0, 0, 0, 0, 0x00, 0x11, 0x22, 0xff, 0xfe, 0x33, 0x44, 0x55]
        [0xfe, 0x80, 0, 0, 0, 0, 0, 0, 0, 0, 0, 0xff, 0xfe, 0, 0, 9]
        (icmpv6_fill_checksum ((([128, 0, 0, 0, 0, 1, 0, 1] : List Nat).set 2 0).set 3 0)
          (icmpv6_checksum ((([128, 0, 0, 0, 0, 1, 0, 1] : List Nat).set 2 0).set 3 0)
            [0xfe, 0x80, 0, 0, 0, 0, 0, 0, 0, 0, 0, 0xff, 0xfe, 0, 0, 9]
            [0xfe, 0x80, 0, 0, 0, 0, 0, 0, 0x00, 0x11, 0x22, 0xff, 0xfe, 0x33, 0x44, 0x55]))
        = true :=
  icmpv6_checksum_unicast_only
    [0xfe, 0x80, 0, 0, 0, 0, 0, 0, 0x00, 0x11, 0x22, 0xff, 0xfe, 0x33, 0x44, 0x55]
    [0xfe, 0x80, 0, 0, 0, 0, 0, 0, 0, 0, 0, 0xff, 0xfe, 0, 0, 9]
    [128, 0, 0, 0, 0, 1, 0, 1]
    (by decide) (by decide) (by decide) (by decide)

end NetStack
